import Mathlib

/-!
Verification of the gen-story batch generation pipeline.

Shallow embedding of:
  - src/llm/schema/output.py   (Story, StoryOutput)
  - src/llm/base.py            (Prompt)
  - src/llm/schema/gemini.py   (GeminiTextPrompt, GeminiYoutubePrompt, GeminiPrompt)
  - src/llm/gemini.py          (GeminiTsumGenerator.generate, batch_generate)
  - src/cmd/gen_story.py       (load_video_ids_from_csv, save_results_to_json,
                                generate_messages_sequentially, main)

External effects are made explicit: the remote Gemini backend is an oracle
argument, time.sleep and print become trace events, and the filesystem is an
explicit state value.
-/

namespace GenStory

/-- Class Story from src/llm/schema/output.py: a title/message pair. -/
structure Story where
  title : String
  message : String
deriving DecidableEq

/-- Class StoryOutput from src/llm/schema/output.py: the validated reply shape. -/
structure StoryOutput where
  stories : List Story
deriving DecidableEq

/-- Class Prompt from src/llm/base.py: a video URL plus instruction text. -/
structure Prompt where
  video_url : String
  text : String
deriving DecidableEq

/-! ## Batch driver (src/cmd/gen_story.py, generate_messages_sequentially)

In Python the `messages` list holds either a `StoryOutput` (success) or the
string `"ERROR: " + str(e)` (caught exception).  The backend call
`await summarizer.generate(prompts)` is abstracted as an oracle giving, for
each 1-based loop index, either the returned `StoryOutput` or the raised
exception's `str(e)`. -/

/-- An element of the Python `messages` list: `StoryOutput` or error string. -/
inductive GenMessage where
  | out (o : StoryOutput)
  | err (msg : String)
deriving DecidableEq

/-- Outcome of the `await summarizer.generate(prompts)` call for one record:
`.ok` with the parsed output, or `.error` with the exception text `str(e)`. -/
abbrev GenOracle := Nat → Except String StoryOutput

/-- What the loop body appends to `messages` for a given call outcome:
the output itself, or `f"ERROR: {str(e)}"`. -/
def messageOf : Except String StoryOutput → GenMessage
  | .ok m => .out m
  | .error e => .err ("ERROR: " ++ e)

/-- Observable events of the driver loop: processing a record (the progress
print) and `time.sleep(sleep_seconds)`. -/
inductive DriverEv where
  | process (i : Nat) (video_id : String)
  | sleep
deriving DecidableEq

/-- A `VideoRecord` as produced by `load_video_ids_from_csv`: a dict with the
five fixed keys.  `video_id` is a string; the optional fields hold a Python
string (`some s`) or Python `None` (`none`, the `csv.DictReader` restval for
short rows). -/
structure VideoRecord where
  video_id : String
  title : Option String
  channel : Option String
  parent_category : Option String
  fine_category : Option String
deriving DecidableEq

/-- The `for i, video in enumerate(video_data, 1)` loop of
`generate_messages_sequentially`: appends one message per record and sleeps
after every record with `i < total`. -/
def genGo (oracle : GenOracle) (total : Nat) :
    List VideoRecord → Nat → List GenMessage × List DriverEv
  | [], _ => ([], [])
  | v :: rest, i =>
    let msg := messageOf (oracle i)
    let tailRes := genGo oracle total rest (i + 1)
    (msg :: tailRes.1,
      DriverEv.process i v.video_id ::
        ((if i < total then [DriverEv.sleep] else []) ++ tailRes.2))

/-- Function generate_messages_sequentially (src/cmd/gen_story.py): the messages list
together with the event trace. -/
def generate_messages_sequentially (oracle : GenOracle)
    (video_data : List VideoRecord) : List GenMessage × List DriverEv :=
  genGo oracle video_data.length video_data 1

/-! ## Result assembly (src/cmd/gen_story.py, main) -/

/-- A `ResultRecord`: the dict built in `main`.  `none` in an optional field
means the key is absent from the dict. -/
structure ResultRecord where
  video_id : String
  stories : List Story
  title : Option String
  channel : Option String
  parent_category : Option String
  fine_category : Option String
deriving DecidableEq

/-- Python truthiness of a `str | None` value: `False` for `None` and `""`. -/
def truthy : Option String → Bool
  | none => false
  | some s => s ≠ ""

/-- Python `if video.get(k): result[k] = video[k]` — the key is added only when the
value is truthy. -/
def keepIfTruthy (v : Option String) : Option String :=
  if truthy v then v else none

/-- One iteration of the `for video, message in zip(video_data, messages)`
loop in `main`: build the result dict for one record. -/
def assembleResult (video : VideoRecord) (message : GenMessage) : ResultRecord :=
  let stories_data :=
    match message with
    | .out m => m.stories.map (fun story => { title := story.title, message := story.message })
    | .err s => [{ title := "Error", message := s }]
  { video_id := video.video_id
    stories := stories_data
    title := keepIfTruthy video.title
    channel := keepIfTruthy video.channel
    parent_category := keepIfTruthy video.parent_category
    fine_category := keepIfTruthy video.fine_category }

/-- The whole assembly loop of `main`: `zip(video_data, messages)`. -/
def combineResults (video_data : List VideoRecord) (messages : List GenMessage) :
    List ResultRecord :=
  (video_data.zip messages).map fun vm => assembleResult vm.1 vm.2

/-- The `results` list `main` passes to `save_results_to_json`, as a function
of the loaded records and the backend oracle. -/
def mainResults (oracle : GenOracle) (video_data : List VideoRecord) :
    List ResultRecord :=
  combineResults video_data (generate_messages_sequentially oracle video_data).1

/-! ### Helper lemmas about the driver and assembly -/

theorem genGo_messages_length (oracle : GenOracle) (total : Nat) :
    ∀ (vd : List VideoRecord) (i : Nat), (genGo oracle total vd i).1.length = vd.length := by
  intro vd
  induction vd with
  | nil => intro i; rfl
  | cons v rest ih => intro i; simp [genGo, ih]

theorem genGo_messages_closed (oracle : GenOracle) (total : Nat) :
    ∀ (vd : List VideoRecord) (i : Nat),
      (genGo oracle total vd i).1
        = (List.range vd.length).map (fun j => messageOf (oracle (i + j))) := by
  intro vd
  induction vd with
  | nil => intro i; rfl
  | cons v rest ih =>
    intro i
    simp only [genGo, ih (i + 1), List.length_cons, List.range_succ_eq_map,
      List.map_cons, List.map_map, List.cons.injEq]
    refine ⟨by simp, ?_⟩
    apply List.map_congr_left
    intro j _
    simp only [Function.comp_apply]
    have hj : i + 1 + j = i + (j + 1) := by omega
    rw [hj]

theorem combineResults_length (vd : List VideoRecord) (ms : List GenMessage)
    (h : ms.length = vd.length) : (combineResults vd ms).length = vd.length := by
  simp [combineResults, List.length_zip, h]

theorem combineResults_getElem? (vd : List VideoRecord) (ms : List GenMessage) :
    ∀ j : Nat,
      (combineResults vd ms)[j]? =
        match vd[j]?, ms[j]? with
        | some v, some m => some (assembleResult v m)
        | _, _ => none := by
  induction vd generalizing ms with
  | nil => intro j; cases ms <;> simp [combineResults]
  | cons v rest ih =>
    intro j
    cases ms with
    | nil => simp [combineResults]
    | cons m mrest =>
      cases j with
      | zero => simp [combineResults]
      | succ j =>
        have := ih mrest j
        simpa [combineResults, List.zip_cons_cons] using this

theorem mainResults_getElem? (oracle : GenOracle) (vd : List VideoRecord) (j : Nat) :
    (mainResults oracle vd)[j]? =
      (vd[j]?).map (fun v => assembleResult v (messageOf (oracle (j + 1)))) := by
  have hmsg := genGo_messages_closed oracle vd.length vd 1
  have hcomb := combineResults_getElem? vd (generate_messages_sequentially oracle vd).1 j
  rw [mainResults, combineResults] at *
  rw [hcomb]
  by_cases hj : j < vd.length
  · have hv : ∃ v, vd[j]? = some v := by
      exact ⟨vd[j], List.getElem?_eq_getElem hj⟩
    obtain ⟨v, hv⟩ := hv
    have hm : (generate_messages_sequentially oracle vd).1[j]? =
        some (messageOf (oracle (1 + j))) := by
      rw [generate_messages_sequentially, hmsg]
      rw [List.getElem?_map, List.getElem?_range hj]
      rfl
    rw [hv, hm]
    simp [Nat.add_comm 1 j]
  · have hv : vd[j]? = none := List.getElem?_eq_none (by omega)
    rw [hv]
    have hm : (generate_messages_sequentially oracle vd).1[j]? = none := by
      apply List.getElem?_eq_none
      rw [generate_messages_sequentially, genGo_messages_length]
      omega
    rw [hm]
    simp

theorem assembleResult_video_id (v : VideoRecord) (m : GenMessage) :
    (assembleResult v m).video_id = v.video_id := by
  cases m <;> rfl

theorem mainResults_video_id (oracle : GenOracle) (vd : List VideoRecord) (j : Nat) :
    ((mainResults oracle vd)[j]?).map ResultRecord.video_id
      = (vd[j]?).map VideoRecord.video_id := by
  rw [mainResults_getElem?]
  cases vd[j]? with
  | none => rfl
  | some v => simp [assembleResult_video_id]

theorem mainResults_length (oracle : GenOracle) (vd : List VideoRecord) :
    (mainResults oracle vd).length = vd.length := by
  rw [mainResults]
  exact combineResults_length _ _ (genGo_messages_length oracle vd.length vd 1)

theorem keepIfTruthy_of_ne (s : String) (hs : s ≠ "") :
    keepIfTruthy (some s) = some s := by
  simp [keepIfTruthy, truthy, hs]

theorem keepIfTruthy_falsy (v : Option String) (hv : v = none ∨ v = some "") :
    keepIfTruthy v = none := by
  rcases hv with h | h <;> subst h <;> simp [keepIfTruthy, truthy]

/-! ## Claim theorems C1–C3 -/

/-- C1: for every input sequence of N video records,
`generate_messages_sequentially` produces a messages list of length N, and the
assembly step in `main` emits exactly one `ResultRecord` per input record, in
the same relative order (the record at output position i carries the video_id
of the input record at position i), regardless of the generation-call
outcomes. -/
theorem driver_one_result_per_record_in_order (oracle : GenOracle)
    (video_data : List VideoRecord) :
    (generate_messages_sequentially oracle video_data).1.length
        = video_data.length ∧
    (mainResults oracle video_data).length = video_data.length ∧
    (mainResults oracle video_data).map ResultRecord.video_id
        = video_data.map VideoRecord.video_id := by
  refine ⟨genGo_messages_length oracle video_data.length video_data 1,
    mainResults_length oracle video_data, ?_⟩
  apply List.ext_getElem?
  intro n
  rw [List.getElem?_map, List.getElem?_map]
  exact mainResults_video_id oracle video_data n

/-- C2: if the generation call for the record at (0-based) position i raises
an exception with text e, the batch does not abort: that record's stories
field is exactly `[{title := "Error", message := "ERROR: " ++ e}]`, the
message is non-empty, and every record (in particular every subsequent one)
is still emitted with its input video_id at its input position. -/
theorem failed_record_gets_error_entry_rest_processed (oracle : GenOracle)
    (video_data : List VideoRecord) (i : Nat) (e : String)
    (hi : i < video_data.length) (he : oracle (i + 1) = .error e) :
    ((mainResults oracle video_data)[i]?).map ResultRecord.stories
        = some [{ title := "Error", message := "ERROR: " ++ e }] ∧
    ("ERROR: " ++ e) ≠ "" ∧
    ∀ j : Nat, j < video_data.length →
      ((mainResults oracle video_data)[j]?).map ResultRecord.video_id
        = (video_data[j]?).map VideoRecord.video_id := by
  refine ⟨?_, ?_, fun j _ => mainResults_video_id oracle video_data j⟩
  · rw [mainResults_getElem?]
    obtain ⟨v, hv⟩ : ∃ v, video_data[i]? = some v :=
      ⟨video_data[i], List.getElem?_eq_getElem hi⟩
    rw [hv, he]
    rfl
  · intro h
    have hlen := congrArg String.length h
    simp only [String.length_append] at hlen
    have h7 : ("ERROR: " : String).length = 7 := by decide
    have h0 : ("" : String).length = 0 := by decide
    omega

/-- C3: each optional metadata field (title, channel, parent_category,
fine_category) that is non-empty on the input record appears verbatim on the
matching output record, and each such field that is empty or absent on the
input is absent (no key) on the output record. -/
theorem optional_fields_passthrough (oracle : GenOracle)
    (vd : List VideoRecord) (i : Nat) (v : VideoRecord) (r : ResultRecord)
    (hv : vd[i]? = some v)
    (hr : (mainResults oracle vd)[i]? = some r) :
    (∀ s, v.title = some s → s ≠ "" → r.title = some s) ∧
    ((v.title = none ∨ v.title = some "") → r.title = none) ∧
    (∀ s, v.channel = some s → s ≠ "" → r.channel = some s) ∧
    ((v.channel = none ∨ v.channel = some "") → r.channel = none) ∧
    (∀ s, v.parent_category = some s → s ≠ "" → r.parent_category = some s) ∧
    ((v.parent_category = none ∨ v.parent_category = some "") →
        r.parent_category = none) ∧
    (∀ s, v.fine_category = some s → s ≠ "" → r.fine_category = some s) ∧
    ((v.fine_category = none ∨ v.fine_category = some "") →
        r.fine_category = none) := by
  rw [mainResults_getElem?, hv] at hr
  have hr2 : r = assembleResult v (messageOf (oracle (i + 1))) := by
    simpa using hr.symm
  subst hr2
  refine ⟨?_, ?_, ?_, ?_, ?_, ?_, ?_, ?_⟩
  · intro s hs hne; simp [assembleResult, hs, keepIfTruthy_of_ne s hne]
  · intro h; simp [assembleResult, keepIfTruthy_falsy v.title h]
  · intro s hs hne; simp [assembleResult, hs, keepIfTruthy_of_ne s hne]
  · intro h; simp [assembleResult, keepIfTruthy_falsy v.channel h]
  · intro s hs hne; simp [assembleResult, hs, keepIfTruthy_of_ne s hne]
  · intro h; simp [assembleResult, keepIfTruthy_falsy v.parent_category h]
  · intro s hs hne; simp [assembleResult, hs, keepIfTruthy_of_ne s hne]
  · intro h; simp [assembleResult, keepIfTruthy_falsy v.fine_category h]

/-! ## Witness inputs -/

/-- A concrete two-record input. -/
def vd0 : List VideoRecord :=
  [{ video_id := "abc123", title := some "Cat Video", channel := none,
     parent_category := some "", fine_category := none },
   { video_id := "def456", title := some "", channel := some "News",
     parent_category := none, fine_category := some "Travel" }]

/-- A concrete backend behaviour: the first call raises, the second
succeeds. -/
def oracle0 : GenOracle := fun i =>
  if i = 1 then .error "boom"
  else .ok { stories := [{ title := "T1", message := "M1" }] }

theorem failed_record_gets_error_entry_rest_processed_witness :
    ((mainResults oracle0 vd0)[0]?).map ResultRecord.stories
        = some [{ title := "Error", message := "ERROR: " ++ "boom" }] ∧
    ("ERROR: " ++ "boom") ≠ "" ∧
    ∀ j : Nat, j < vd0.length →
      ((mainResults oracle0 vd0)[j]?).map ResultRecord.video_id
        = (vd0[j]?).map VideoRecord.video_id :=
  failed_record_gets_error_entry_rest_processed oracle0 vd0 0 "boom"
    (by decide) (by rfl)

theorem optional_fields_passthrough_witness :
    (∀ s, (vd0.get ⟨1, by decide⟩).title = some s → s ≠ "" →
      ((mainResults oracle0 vd0).get ⟨1, by simp [mainResults_length]; decide⟩).title = some s) ∧
    (((vd0.get ⟨1, by decide⟩).title = none ∨
        (vd0.get ⟨1, by decide⟩).title = some "") →
      ((mainResults oracle0 vd0).get ⟨1, by simp [mainResults_length]; decide⟩).title = none) := by
  have h := optional_fields_passthrough oracle0 vd0 1 (vd0.get ⟨1, by decide⟩)
    ((mainResults oracle0 vd0).get ⟨1, by simp [mainResults_length]; decide⟩)
    (by decide) (List.getElem?_eq_getElem _)
  exact ⟨h.1, h.2.1⟩

/-! ## Pacing (C4) -/

/-- Recognizes the `time.sleep` event. -/
def isSleep : DriverEv → Bool
  | .sleep => true
  | _ => false

/-- Number of `time.sleep` calls in a driver trace. -/
def countSleeps (evs : List DriverEv) : Nat := evs.countP isSleep

theorem genGo_cons (oracle : GenOracle) (total : Nat) (v : VideoRecord)
    (rest : List VideoRecord) (i : Nat) :
    genGo oracle total (v :: rest) i
      = (messageOf (oracle i) :: (genGo oracle total rest (i + 1)).1,
         DriverEv.process i v.video_id ::
           ((if i < total then [DriverEv.sleep] else [])
             ++ (genGo oracle total rest (i + 1)).2)) := rfl

theorem genGo_trace_spec (oracle : GenOracle) (total : Nat) :
    ∀ (vd : List VideoRecord) (i : Nat), vd ≠ [] → i + vd.length = total + 1 →
      countSleeps (genGo oracle total vd i).2 = vd.length - 1 ∧
      ∃ v, (genGo oracle total vd i).2.getLast? = some (.process total v) := by
  intro vd
  induction vd with
  | nil => intro i h _; exact absurd rfl h
  | cons v rest ih =>
    intro i _ hinv
    cases rest with
    | nil =>
      have hi : i = total := by simpa using hinv
      subst hi
      constructor
      · simp [genGo, countSleeps, isSleep]
      · exact ⟨v.video_id, by simp [genGo]⟩
    | cons r rs =>
      have hlt : i < total := by
        simp only [List.length_cons] at hinv
        omega
      have hinv2 : (i + 1) + (r :: rs).length = total + 1 := by
        simp only [List.length_cons] at hinv ⊢
        omega
      obtain ⟨hcount, w, hlast⟩ := ih (i + 1) (by simp) hinv2
      have htail_ne : (genGo oracle total (r :: rs) (i + 1)).2 ≠ [] := by
        intro hnil
        rw [hnil] at hlast
        simp at hlast
      constructor
      · rw [genGo_cons, if_pos hlt]
        simp only [List.length_cons] at hcount ⊢
        simp [countSleeps, List.countP_cons, List.countP_append, isSleep]
          at hcount ⊢
        omega
      · refine ⟨w, ?_⟩
        rw [genGo_cons, if_pos hlt]
        rw [show (DriverEv.process i v.video_id ::
              ([DriverEv.sleep] ++ (genGo oracle total (r :: rs) (i + 1)).2))
            = [DriverEv.process i v.video_id, DriverEv.sleep]
              ++ (genGo oracle total (r :: rs) (i + 1)).2 from rfl]
        rw [List.getLast?_append_of_ne_nil _ htail_ne]
        exact hlast

/-- C4: for a non-empty input of N records, the driver performs exactly N−1
(`time.sleep`) pauses — hence at most N−1 — and the final trace event is the
processing of record N, so no pause follows the final record, whatever the
call outcomes (failures included). -/
theorem pacing_at_most_n_minus_one_sleeps (oracle : GenOracle)
    (video_data : List VideoRecord) (h : video_data ≠ []) :
    countSleeps (generate_messages_sequentially oracle video_data).2
        = video_data.length - 1 ∧
    countSleeps (generate_messages_sequentially oracle video_data).2
        ≤ video_data.length - 1 ∧
    ∃ v, (generate_messages_sequentially oracle video_data).2.getLast?
        = some (.process video_data.length v) := by
  obtain ⟨hc, hl⟩ := genGo_trace_spec oracle video_data.length video_data 1 h
    (by omega)
  exact ⟨hc, le_of_eq hc, hl⟩

theorem pacing_at_most_n_minus_one_sleeps_witness :
    countSleeps (generate_messages_sequentially oracle0 vd0).2
        = vd0.length - 1 ∧
    countSleeps (generate_messages_sequentially oracle0 vd0).2
        ≤ vd0.length - 1 ∧
    ∃ v, (generate_messages_sequentially oracle0 vd0).2.getLast?
        = some (.process vd0.length v) :=
  pacing_at_most_n_minus_one_sleeps oracle0 vd0 (by decide)

/-! ## Gemini adapter (src/llm/gemini.py, src/llm/schema/gemini.py) -/

/-- A `google.genai` `types.Part` as built here: a file-data part carrying a
`file_uri`, or a text part. -/
inductive GeminiPart where
  | fileData (file_uri : String)
  | text (s : String)
deriving DecidableEq

/-- The `Union[GeminiYoutubePrompt, GeminiTextPrompt]` message classes of
src/llm/schema/gemini.py. -/
inductive GeminiMessage where
  | youtube (video_url : String)
  | text (message : String)
deriving DecidableEq

/-- Methods `GeminiYoutubePrompt.to_part` and `GeminiTextPrompt.to_part`. -/
def GeminiMessage.to_part : GeminiMessage → GeminiPart
  | .youtube u => .fileData u
  | .text m => .text m

/-- Class GeminiPrompt of src/llm/schema/gemini.py. -/
structure GeminiPrompt where
  messages : List GeminiMessage
deriving DecidableEq

/-- Method `GeminiPrompt.to_parts`: map each message to its part. -/
def GeminiPrompt.to_parts (p : GeminiPrompt) : List GeminiPart :=
  p.messages.map GeminiMessage.to_part

/-- The message-building loop at the top of `GeminiTsumGenerator.generate`:
for each prompt append a `GeminiYoutubePrompt` then a `GeminiTextPrompt`. -/
def buildMessages (prompts : List Prompt) : List GeminiMessage :=
  prompts.flatMap fun p => [.youtube p.video_url, .text p.text]

/-- The fields of the `generate_content` response the adapter reads: the
`.text` attribute, a string or `None`. -/
structure GeminiResponse where
  text : Option String
deriving DecidableEq

/-- One remote `generate_content` invocation: the model name and the message
parts sent. -/
structure RemoteCall where
  model : String
  parts : List GeminiPart
deriving DecidableEq

/-- Core of `GeminiTsumGenerator.generate` (src/llm/gemini.py).  The externals are
explicit parameters: `parse` is pydantic's `StoryOutput.model_validate_json`
(`.error` = raised `ValidationError`), `response` is what the one
`generate_content` call returns (`none` = Python `None`).  The result is
paired with the list of remote calls the invocation issues. -/
def generateResult (parse : String → Except String StoryOutput)
    (response : Option GeminiResponse) : Except String StoryOutput :=
  match response with
  | none => .error "No response from Gemini API."
  | some r =>
    match r.text with
    | none => .error "No response from Gemini API."
    | some t => parse t

/-- Method `GeminiTsumGenerator.generate` proper: the outcome paired with the list
of remote calls issued (one `generate_content` call, built from
`GeminiPrompt(messages=...).to_parts()`). -/
def GeminiTsumGenerator.generate (parse : String → Except String StoryOutput)
    (model_name : String) (prompts : List Prompt)
    (response : Option GeminiResponse) :
    Except String StoryOutput × List RemoteCall :=
  (generateResult parse response,
   [{ model := model_name,
      parts := GeminiPrompt.to_parts { messages := buildMessages prompts } }])

/-- C5: `generate` issues exactly one remote call; a `None` response and a
`None` response text both raise the same error; a schema-validation failure
raises; and an `.ok` value is returned only for a reply text that fully
validates — never a partial or malformed result. -/
theorem generate_error_handling_single_call
    (parse : String → Except String StoryOutput) (model_name : String)
    (prompts : List Prompt) (response : Option GeminiResponse) :
    ((GeminiTsumGenerator.generate parse model_name prompts response).2.length
        = 1) ∧
    ((response = none ∨ ∃ r, response = some r ∧ r.text = none) →
      (GeminiTsumGenerator.generate parse model_name prompts response).1
        = .error "No response from Gemini API.") ∧
    (∀ r t e, response = some r → r.text = some t → parse t = .error e →
      (GeminiTsumGenerator.generate parse model_name prompts response).1
        = .error e) ∧
    (∀ out,
      (GeminiTsumGenerator.generate parse model_name prompts response).1
          = .ok out →
      ∃ r t, response = some r ∧ r.text = some t ∧ parse t = .ok out) := by
  refine ⟨rfl, ?_, ?_, ?_⟩
  · intro hcase
    rcases hcase with h | ⟨r, hr, htx⟩
    · subst h; rfl
    · subst hr
      simp [GeminiTsumGenerator.generate, generateResult, htx]
  · intro r t e hr htx hp
    subst hr
    simp [GeminiTsumGenerator.generate, generateResult, htx, hp]
  · intro out hout
    cases response with
    | none => simp [GeminiTsumGenerator.generate, generateResult] at hout
    | some r =>
      cases htx : r.text with
      | none =>
        rw [GeminiTsumGenerator.generate] at hout
        simp [generateResult, htx] at hout
      | some t =>
        rw [GeminiTsumGenerator.generate] at hout
        simp [generateResult, htx] at hout
        exact ⟨r, t, rfl, htx, hout⟩

/-- A concrete stand-in for `StoryOutput.model_validate_json`: accepts only
the literal reply "good". -/
def parse0 : String → Except String StoryOutput := fun s =>
  if s = "good" then .ok { stories := [{ title := "T", message := "M" }] }
  else .error ("Invalid JSON: " ++ s)

theorem generate_error_handling_single_call_witness :
    ((GeminiTsumGenerator.generate parse0 "gemini-2.5-flash" [] none).2.length
        = 1) ∧
    ((GeminiTsumGenerator.generate parse0 "gemini-2.5-flash" [] none).1
        = .error "No response from Gemini API.") ∧
    ((GeminiTsumGenerator.generate parse0 "gemini-2.5-flash" []
        (some { text := some "bad" })).1
        = .error ("Invalid JSON: " ++ "bad")) := by
  have h1 := generate_error_handling_single_call parse0 "gemini-2.5-flash" []
    none
  have h2 := generate_error_handling_single_call parse0 "gemini-2.5-flash" []
    (some { text := some "bad" })
  exact ⟨h1.1, h1.2.1 (Or.inl rfl),
    h2.2.2.1 { text := some "bad" } "bad" ("Invalid JSON: " ++ "bad") rfl rfl
      rfl⟩

/-! ## Prompt wire format (C6) -/

theorem flatMap_pairs_length {α β : Type} (f g : α → β) (l : List α) :
    (l.flatMap fun a => [f a, g a]).length = 2 * l.length := by
  induction l with
  | nil => rfl
  | cons a as ih =>
    simp only [List.flatMap_cons, List.length_append, List.length_cons,
      List.length_nil]
    omega

theorem flatMap_pairs_getElem? {α β : Type} (f g : α → β) (l : List α) :
    ∀ i : Nat,
      ((l.flatMap fun a => [f a, g a])[2 * i]? = (l[i]?).map f) ∧
      ((l.flatMap fun a => [f a, g a])[2 * i + 1]? = (l[i]?).map g) := by
  induction l with
  | nil => intro i; simp
  | cons a as ih =>
    intro i
    cases i with
    | zero => simp
    | succ i =>
      have h1 : 2 * (i + 1) = 2 * i + 1 + 1 := by omega
      have h2 : 2 * (i + 1) + 1 = 2 * i + 1 + 1 + 1 := by omega
      constructor
      · rw [h1]
        simp only [List.flatMap_cons, List.cons_append, List.nil_append,
          List.getElem?_cons_succ]
        exact (ih i).1
      · rw [h2]
        simp only [List.flatMap_cons, List.cons_append, List.nil_append,
          List.getElem?_cons_succ]
        exact (ih i).2

/-- C6: the single remote call of `generate` carries, in order, a file-data
part then a text part per input prompt: the part list is the in-order
concatenation over prompts of `[fileData video_url, text text]`, it has
exactly 2k parts for k prompts, and the part at position 2i is the media
reference of prompt i while position 2i+1 is its text. -/
theorem generate_builds_parts_in_order
    (parse : String → Except String StoryOutput) (model_name : String)
    (prompts : List Prompt) (response : Option GeminiResponse) :
    ((GeminiTsumGenerator.generate parse model_name prompts response).2
      = [{ model := model_name,
           parts := prompts.flatMap
             fun p => [.fileData p.video_url, .text p.text] }]) ∧
    ((prompts.flatMap
        (fun p => [GeminiPart.fileData p.video_url, GeminiPart.text p.text])).length
      = 2 * prompts.length) ∧
    (∀ i : Nat,
      (prompts.flatMap
        (fun p => [GeminiPart.fileData p.video_url, GeminiPart.text p.text]))[2 * i]?
        = (prompts[i]?).map fun p => GeminiPart.fileData p.video_url) ∧
    (∀ i : Nat,
      (prompts.flatMap
        (fun p => [GeminiPart.fileData p.video_url, GeminiPart.text p.text]))[2 * i + 1]?
        = (prompts[i]?).map fun p => GeminiPart.text p.text) := by
  have hparts : GeminiPrompt.to_parts { messages := buildMessages prompts }
      = prompts.flatMap fun p => [.fileData p.video_url, .text p.text] := by
    rw [GeminiPrompt.to_parts, buildMessages, List.map_flatMap]
    rfl
  refine ⟨?_, flatMap_pairs_length _ _ prompts,
    fun i => (flatMap_pairs_getElem? _ _ prompts i).1,
    fun i => (flatMap_pairs_getElem? _ _ prompts i).2⟩
  unfold GeminiTsumGenerator.generate
  rw [hparts]

/-! ## batch_generate (C9) -/

/-- The `asyncio.gather` of `GeminiTsumGenerator.batch_generate`: one
`generate` task per element of `prompt_list`, `responses i` being the backend
reply for task i.  `gather` (without `return_exceptions`) yields the results
in task order when all tasks succeed and re-raises an exception as soon as
any task fails; this recursion realizes that contract. -/
def batchGo (parse : String → Except String StoryOutput) (model_name : String)
    (responses : Nat → Option GeminiResponse) :
    List (List Prompt) → Nat → Except String (List StoryOutput)
  | [], _ => .ok []
  | ps :: rest, i =>
    match (GeminiTsumGenerator.generate parse model_name ps (responses i)).1 with
    | .error e => .error e
    | .ok out =>
      match batchGo parse model_name responses rest (i + 1) with
      | .error e => .error e
      | .ok outs => .ok (out :: outs)

/-- Method `GeminiTsumGenerator.batch_generate` (src/llm/gemini.py). -/
def GeminiTsumGenerator.batch_generate
    (parse : String → Except String StoryOutput) (model_name : String)
    (responses : Nat → Option GeminiResponse)
    (prompt_list : List (List Prompt)) : Except String (List StoryOutput) :=
  batchGo parse model_name responses prompt_list 0

theorem batchGo_cons (parse : String → Except String StoryOutput)
    (model_name : String) (responses : Nat → Option GeminiResponse)
    (ps : List Prompt) (rest : List (List Prompt)) (k : Nat) :
    batchGo parse model_name responses (ps :: rest) k
      = match (GeminiTsumGenerator.generate parse model_name ps
            (responses k)).1 with
        | .error e => .error e
        | .ok out =>
          match batchGo parse model_name responses rest (k + 1) with
          | .error e => .error e
          | .ok outs => .ok (out :: outs) := rfl

theorem batchGo_ok (parse : String → Except String StoryOutput)
    (model_name : String) (responses : Nat → Option GeminiResponse) :
    ∀ (pl : List (List Prompt)) (k : Nat),
      (∀ i ps, pl[i]? = some ps →
        ∃ out, (GeminiTsumGenerator.generate parse model_name ps
          (responses (k + i))).1 = .ok out) →
      ∃ outs, batchGo parse model_name responses pl k = .ok outs ∧
        outs.length = pl.length ∧
        ∀ i : Nat, outs[i]? = (pl[i]?).bind fun ps =>
          ((GeminiTsumGenerator.generate parse model_name ps
            (responses (k + i))).1).toOption := by
  intro pl
  induction pl with
  | nil =>
    intro k _
    exact ⟨[], rfl, rfl, fun i => by simp⟩
  | cons ps rest ih =>
    intro k h
    obtain ⟨out, hout⟩ := h 0 ps (by simp)
    rw [Nat.add_zero] at hout
    have hshift : ∀ i ps2, rest[i]? = some ps2 →
        ∃ out2, (GeminiTsumGenerator.generate parse model_name ps2
          (responses (k + 1 + i))).1 = .ok out2 := by
      intro i ps2 hp
      have harith : k + 1 + i = k + (i + 1) := by omega
      rw [harith]
      exact h (i + 1) ps2 (by simpa using hp)
    obtain ⟨outs, hb, hlen, hidx⟩ := ih (k + 1) hshift
    refine ⟨out :: outs, ?_, by simp [hlen], ?_⟩
    · rw [batchGo_cons, hout, hb]
    · intro i
      cases i with
      | zero => simp [hout, Except.toOption]
      | succ i =>
        have harith : k + (i + 1) = k + 1 + i := by omega
        simp only [List.getElem?_cons_succ, harith]
        exact hidx i

theorem batchGo_error (parse : String → Except String StoryOutput)
    (model_name : String) (responses : Nat → Option GeminiResponse) :
    ∀ (pl : List (List Prompt)) (k i : Nat) (ps : List Prompt) (e : String),
      pl[i]? = some ps →
      (GeminiTsumGenerator.generate parse model_name ps
        (responses (k + i))).1 = .error e →
      ∃ e2, batchGo parse model_name responses pl k = .error e2 := by
  intro pl
  induction pl with
  | nil => intro k i ps e h _; simp at h
  | cons ps0 rest ih =>
    intro k i ps e hidx herr
    cases i with
    | zero =>
      rw [List.getElem?_cons_zero] at hidx
      cases hidx
      rw [Nat.add_zero] at herr
      exact ⟨e, by rw [batchGo_cons, herr]⟩
    | succ i =>
      cases hgen : (GeminiTsumGenerator.generate parse model_name ps0
          (responses k)).1 with
      | error e0 => exact ⟨e0, by rw [batchGo_cons, hgen]⟩
      | ok out =>
        obtain ⟨e2, hb⟩ := ih (k + 1) i ps e (by simpa using hidx)
          (by rw [show k + 1 + i = k + (i + 1) from by omega]; exact herr)
        exact ⟨e2, by rw [batchGo_cons, hgen, hb]⟩

/-- C9: `batch_generate` is index-aligned with its input: when every
per-element `generate` call succeeds, it returns the list of their results in
input order; and it offers no per-item failure isolation — if any individual
`generate` call fails, the whole batch fails. -/
theorem batch_generate_index_aligned_no_isolation
    (parse : String → Except String StoryOutput) (model_name : String)
    (responses : Nat → Option GeminiResponse)
    (prompt_list : List (List Prompt)) :
    ((∀ i ps, prompt_list[i]? = some ps →
        ∃ out, (GeminiTsumGenerator.generate parse model_name ps
          (responses i)).1 = .ok out) →
      ∃ outs, GeminiTsumGenerator.batch_generate parse model_name responses
          prompt_list = .ok outs ∧
        outs.length = prompt_list.length ∧
        ∀ i : Nat, outs[i]? = (prompt_list[i]?).bind fun ps =>
          ((GeminiTsumGenerator.generate parse model_name ps
            (responses i)).1).toOption) ∧
    (∀ i ps e, prompt_list[i]? = some ps →
      (GeminiTsumGenerator.generate parse model_name ps (responses i)).1
          = .error e →
      ∃ e2, GeminiTsumGenerator.batch_generate parse model_name responses
        prompt_list = .error e2) := by
  constructor
  · intro h
    obtain ⟨outs, hb, hlen, hidx⟩ :=
      batchGo_ok parse model_name responses prompt_list 0
        (by intro i ps hp; rw [Nat.zero_add]; exact h i ps hp)
    refine ⟨outs, hb, hlen, fun i => ?_⟩
    have := hidx i
    rwa [Nat.zero_add] at this
  · intro i ps e hp herr
    exact batchGo_error parse model_name responses prompt_list 0 i ps e hp
      (by rw [Nat.zero_add]; exact herr)

/-- A concrete two-element prompt batch. -/
def pl0 : List (List Prompt) :=
  [[{ video_url := "u1", text := "t1" }], [{ video_url := "u2", text := "t2" }]]

/-- A backend where every call returns the accepted reply. -/
def respOk : Nat → Option GeminiResponse := fun _ => some { text := some "good" }

/-- A backend where every call returns an unparsable reply. -/
def respBad : Nat → Option GeminiResponse := fun _ => some { text := some "nope" }

theorem batch_generate_index_aligned_no_isolation_witness :
    (∃ outs, GeminiTsumGenerator.batch_generate parse0 "gemini-2.5-flash"
        respOk pl0 = .ok outs ∧
      outs.length = pl0.length ∧
      ∀ i : Nat, outs[i]? = (pl0[i]?).bind fun ps =>
        ((GeminiTsumGenerator.generate parse0 "gemini-2.5-flash" ps
          (respOk i)).1).toOption) ∧
    (∃ e2, GeminiTsumGenerator.batch_generate parse0 "gemini-2.5-flash"
        respBad pl0 = .error e2) := by
  constructor
  · apply (batch_generate_index_aligned_no_isolation parse0 "gemini-2.5-flash"
      respOk pl0).1
    intro i ps hp
    cases i with
    | zero =>
      simp only [pl0, List.getElem?_cons_zero, Option.some.injEq] at hp
      subst hp
      exact ⟨_, rfl⟩
    | succ i =>
      cases i with
      | zero =>
        simp only [pl0, List.getElem?_cons_succ, List.getElem?_cons_zero,
          Option.some.injEq] at hp
        subst hp
        exact ⟨_, rfl⟩
      | succ i => simp [pl0] at hp
  · exact (batch_generate_index_aligned_no_isolation parse0 "gemini-2.5-flash"
      respBad pl0).2 0 [{ video_url := "u1", text := "t1" }]
      ("Invalid JSON: " ++ "nope") rfl rfl

/-! ## CSV loader (src/cmd/gen_story.py, load_video_ids_from_csv) -/

/-- One cell of a `csv.DictReader` row: `none` when the column is absent from
the CSV header, `some none` when the row is shorter than the header (the
reader's restval, Python `None`), `some (some s)` for a parsed value. -/
abbrev Cell := Option (Option String)

/-- Python `row.get(key)` (default `None`). -/
def cellGet (c : Cell) : Option String :=
  match c with
  | none => none
  | some v => v

/-- Python `row.get(key, "")`. -/
def cellGetD (c : Cell) : Option String :=
  match c with
  | none => some ""
  | some v => v

/-- A `csv.DictReader` row restricted to the five columns the loader
reads. -/
structure CsvRow where
  video_id : Cell
  title : Cell
  channel : Cell
  parent_category : Cell
  fine_category : Cell
deriving DecidableEq

/-- Loop body of `load_video_ids_from_csv`: `none` when the row is skipped
(`if not row.get("video_id"): continue`), otherwise the appended dict. -/
def rowToRecord (row : CsvRow) : Option VideoRecord :=
  match cellGet row.video_id with
  | none => none
  | some vid =>
    if vid = "" then none
    else some
      { video_id := vid
        title := cellGetD row.title
        channel := cellGetD row.channel
        parent_category := cellGetD row.parent_category
        fine_category := cellGetD row.fine_category }

/-- Function load_video_ids_from_csv (src/cmd/gen_story.py). -/
def load_video_ids_from_csv (rows : List CsvRow) : List VideoRecord :=
  rows.filterMap rowToRecord

/-- The record built from a row that passes the video_id check. -/
def goodRecord (row : CsvRow) : VideoRecord :=
  { video_id := (cellGet row.video_id).getD ""
    title := cellGetD row.title
    channel := cellGetD row.channel
    parent_category := cellGetD row.parent_category
    fine_category := cellGetD row.fine_category }

theorem rowToRecord_of_falsy (row : CsvRow)
    (h : truthy (cellGet row.video_id) = false) : rowToRecord row = none := by
  rw [rowToRecord]
  cases hv : cellGet row.video_id with
  | none => rfl
  | some vid =>
    rw [hv, truthy] at h
    simp only [decide_eq_false_iff_not, Decidable.not_not] at h
    simp [h]

theorem rowToRecord_of_truthy (row : CsvRow)
    (h : truthy (cellGet row.video_id) = true) :
    rowToRecord row = some (goodRecord row) := by
  rw [rowToRecord]
  cases hv : cellGet row.video_id with
  | none => rw [hv, truthy] at h; cases h
  | some vid =>
    rw [hv, truthy] at h
    simp only [decide_eq_true_eq] at h
    simp [h, goodRecord, hv]

/-- C8: a CSV row whose video_id column is missing or empty produces no
record: the loader skips it silently, and every row with a truthy video_id
contributes exactly one record, in input order. -/
theorem csv_rows_without_video_id_skipped (rows : List CsvRow) :
    (∀ row : CsvRow, truthy (cellGet row.video_id) = false →
      rowToRecord row = none) ∧
    (∀ row : CsvRow, truthy (cellGet row.video_id) = true →
      rowToRecord row = some (goodRecord row)) ∧
    load_video_ids_from_csv rows
      = (rows.filter fun row => truthy (cellGet row.video_id)).map goodRecord := by
  refine ⟨rowToRecord_of_falsy, rowToRecord_of_truthy, ?_⟩
  induction rows with
  | nil => rfl
  | cons row rest ih =>
    rw [load_video_ids_from_csv, List.filterMap_cons]
    cases ht : truthy (cellGet row.video_id) with
    | false =>
      rw [rowToRecord_of_falsy row ht]
      rw [List.filter_cons_of_neg (by simp [ht])]
      exact ih
    | true =>
      rw [rowToRecord_of_truthy row ht]
      rw [List.filter_cons_of_pos (by simp [ht]), List.map_cons]
      exact congrArg _ ih

/-- A row with no video_id column at all. -/
def rowA : CsvRow :=
  { video_id := none, title := some (some "A"), channel := none,
    parent_category := none, fine_category := none }

/-- A row whose video_id cell is the empty string. -/
def rowB : CsvRow :=
  { video_id := some (some ""), title := some (some "B"), channel := none,
    parent_category := none, fine_category := none }

/-- A well-formed row; title column missing from the header, short-row
`None` in parent_category. -/
def rowC : CsvRow :=
  { video_id := some (some "abc123"), title := none,
    channel := some (some "Ch"), parent_category := some none,
    fine_category := some (some "") }

theorem csv_rows_without_video_id_skipped_witness :
    rowToRecord rowA = none ∧
    rowToRecord rowB = none ∧
    rowToRecord rowC = some (goodRecord rowC) ∧
    load_video_ids_from_csv [rowA, rowB, rowC]
      = ([rowA, rowB, rowC].filter
          fun row => truthy (cellGet row.video_id)).map goodRecord := by
  have h := csv_rows_without_video_id_skipped [rowA, rowB, rowC]
  exact ⟨h.1 rowA (by decide), h.1 rowB (by decide),
    h.2.1 rowC (by decide), h.2.2⟩

/-- C10: every record the loader returns carries the five fixed keys (the
`VideoRecord` fields, mirroring the dict literal), its video_id is
non-empty, and each optional column missing from the CSV header is
normalized to the empty string, so the assembly step's truthiness checks are
total over these keys. -/
theorem loader_record_invariant (rows : List CsvRow) :
    (∀ rec, rec ∈ load_video_ids_from_csv rows → rec.video_id ≠ "") ∧
    (∀ row rec, rowToRecord row = some rec →
      rec.video_id ≠ "" ∧
      (row.title = none → rec.title = some "") ∧
      (row.channel = none → rec.channel = some "") ∧
      (row.parent_category = none → rec.parent_category = some "") ∧
      (row.fine_category = none → rec.fine_category = some "")) := by
  have hrow : ∀ row rec, rowToRecord row = some rec →
      rec.video_id ≠ "" ∧
      (row.title = none → rec.title = some "") ∧
      (row.channel = none → rec.channel = some "") ∧
      (row.parent_category = none → rec.parent_category = some "") ∧
      (row.fine_category = none → rec.fine_category = some "") := by
    intro row rec h
    cases ht : truthy (cellGet row.video_id) with
    | false => rw [rowToRecord_of_falsy row ht] at h; cases h
    | true =>
      rw [rowToRecord_of_truthy row ht] at h
      cases h
      obtain ⟨vid, hv, hvid⟩ :
          ∃ vid, cellGet row.video_id = some vid ∧ vid ≠ "" := by
        cases hv : cellGet row.video_id with
        | none => rw [hv, truthy] at ht; cases ht
        | some vid =>
          rw [hv, truthy] at ht
          simp only [decide_eq_true_eq] at ht
          exact ⟨vid, rfl, ht⟩
      refine ⟨by simp [goodRecord, hv, hvid], ?_, ?_, ?_, ?_⟩ <;>
        (intro hc; simp [goodRecord, cellGetD, hc])
  refine ⟨?_, hrow⟩
  intro rec hmem
  rw [load_video_ids_from_csv, List.mem_filterMap] at hmem
  obtain ⟨row, _, hr⟩ := hmem
  exact (hrow row rec hr).1

theorem loader_record_invariant_witness :
    ((goodRecord rowC).video_id ≠ "") ∧
    ((goodRecord rowC).title = some "") := by
  have h := (loader_record_invariant [rowC]).2 rowC (goodRecord rowC)
    (rowToRecord_of_truthy rowC (by decide))
  exact ⟨h.1, h.2.1 rfl⟩

/-! ## Result serializer (src/cmd/gen_story.py, save_results_to_json and
the mkdir in main) -/

/-- A filesystem path, as a list of components. -/
abbrev FsPath := List String

/-- An explicit filesystem: the existing directories and a map from paths to
file contents (earlier entries shadow later ones). -/
structure FS where
  dirs : List FsPath
  files : List (FsPath × String)

/-- Python `Path.mkdir(parents=True, exist_ok=True)`: create the directory
and all its ancestors; never fails. -/
def FS.mkdirParents (fs : FS) (dir : FsPath) : FS :=
  { fs with dirs := dir.inits ++ fs.dirs }

/-- Python `open(path, "w")` followed by a full write: creates or truncates
the file, unconditionally replacing any previous content; raises
FileNotFoundError when the parent directory does not exist. -/
def FS.writeFile (fs : FS) (p : FsPath) (content : String) : Except String FS :=
  if p.dropLast = [] ∨ fs.dirs.contains p.dropLast then
    .ok { fs with files := (p, content) :: fs.files }
  else .error "FileNotFoundError"

/-- Current content of a file. -/
def FS.read (fs : FS) (p : FsPath) : Option String :=
  (fs.files.find? fun q => q.1 == p).map fun q => q.2

/-- Lowercase hex digit, as in Python's json \uXXXX escapes. -/
def hexDigit (n : Nat) : Char :=
  if n < 10 then Char.ofNat (48 + n) else Char.ofNat (87 + n % 16)

def hex4 (n : Nat) : String :=
  String.mk [hexDigit (n / 4096 % 16), hexDigit (n / 256 % 16),
    hexDigit (n / 16 % 16), hexDigit (n % 16)]

/-- Character escaping of `json.dump` with `ensure_ascii=False`: only the
quote, the backslash and control characters are escaped; everything else —
non-ASCII included — passes through verbatim. -/
def escapeChar (c : Char) : String :=
  if c = '"' then "\\\""
  else if c = '\\' then "\\\\"
  else if c = '\n' then "\\n"
  else if c = '\r' then "\\r"
  else if c = '\t' then "\\t"
  else if c = Char.ofNat 8 then "\\b"
  else if c = Char.ofNat 12 then "\\f"
  else if c.toNat < 32 then "\\u" ++ hex4 c.toNat
  else String.singleton c

def dumpString (s : String) : String :=
  "\"" ++ String.join (s.data.map escapeChar) ++ "\""

def indentStr (level : Nat) : String :=
  String.mk (List.replicate (2 * level) ' ')

/-- Array layout of `json.dump` at `indent=2`. -/
def dumpArray (level : Nat) (items : List String) : String :=
  match items with
  | [] => "[]"
  | _ => "[\n"
      ++ String.intercalate ",\n" (items.map fun s => indentStr (level + 1) ++ s)
      ++ "\n" ++ indentStr level ++ "]"

/-- Object layout of `json.dump` at `indent=2` (keys in insertion order). -/
def dumpObject (level : Nat) (pairs : List (String × String)) : String :=
  match pairs with
  | [] => "\x7b\x7d"
  | _ => "\x7b\n"
      ++ String.intercalate ",\n" (pairs.map fun kv =>
          indentStr (level + 1) ++ dumpString kv.1 ++ ": " ++ kv.2)
      ++ "\n" ++ indentStr level ++ "\x7d"

def dumpStory (level : Nat) (st : Story) : String :=
  dumpObject level
    [("title", dumpString st.title), ("message", dumpString st.message)]

/-- Key/value pairs of a ResultRecord dict, in insertion order: video_id,
stories, then the optional fields that are present. -/
def recordPairs (level : Nat) (r : ResultRecord) : List (String × String) :=
  [("video_id", dumpString r.video_id),
   ("stories", dumpArray (level + 1) (r.stories.map (dumpStory (level + 2))))]
  ++ (match r.title with
      | some s => [("title", dumpString s)]
      | none => [])
  ++ (match r.channel with
      | some s => [("channel", dumpString s)]
      | none => [])
  ++ (match r.parent_category with
      | some s => [("parent_category", dumpString s)]
      | none => [])
  ++ (match r.fine_category with
      | some s => [("fine_category", dumpString s)]
      | none => [])

def dumpRecord (level : Nat) (r : ResultRecord) : String :=
  dumpObject level (recordPairs level r)

/-- Full output of `json.dump(results, f, ensure_ascii=False, indent=2)`: a
single array with one element per record, in input order. -/
def dumpResults (results : List ResultRecord) : String :=
  dumpArray 0 (results.map (dumpRecord 1))

/-- Function save_results_to_json (src/cmd/gen_story.py): open the output for
writing and dump the results. -/
def save_results_to_json (results : List ResultRecord) (output_json : FsPath)
    (fs : FS) : Except String FS :=
  fs.writeFile output_json (dumpResults results)

/-- The save pipeline of `main`: `output_json.parent.mkdir(parents=True,
exist_ok=True)` followed by `save_results_to_json(results, output_json)`. -/
def mainSaveStep (results : List ResultRecord) (output_json : FsPath)
    (fs : FS) : Except String FS :=
  save_results_to_json results output_json
    (fs.mkdirParents output_json.dropLast)

/-- C7: on any starting filesystem, the save pipeline creates every missing
ancestor of the destination's parent directory before writing, succeeds, and
leaves the destination holding exactly the indented JSON array of the full
result sequence in input order — regardless of (i.e. overwriting) any
pre-existing content; with `ensure_ascii=False`, non-ASCII characters are
kept verbatim by the escaper. -/
theorem save_creates_dirs_writes_array_overwrites (fs : FS)
    (results : List ResultRecord) (output_json : FsPath) :
    (∃ fs2, mainSaveStep results output_json fs = .ok fs2 ∧
      (∀ q, q ∈ output_json.dropLast.inits → q ∈ fs2.dirs) ∧
      fs2.read output_json = some (dumpResults results)) ∧
    dumpResults results = dumpArray 0 (results.map (dumpRecord 1)) ∧
    (∀ c : Char, 128 ≤ c.toNat → escapeChar c = String.singleton c) := by
  refine ⟨?_, rfl, ?_⟩
  · have hmem : output_json.dropLast
        ∈ (fs.mkdirParents output_json.dropLast).dirs := by
      rw [FS.mkdirParents]
      exact List.mem_append_left _ (by rw [List.mem_inits])
    have hcond : output_json.dropLast = [] ∨
        (fs.mkdirParents output_json.dropLast).dirs.contains
          output_json.dropLast = true :=
      Or.inr (List.elem_iff.mpr hmem)
    refine ⟨{ fs.mkdirParents output_json.dropLast with
        files := (output_json, dumpResults results)
          :: (fs.mkdirParents output_json.dropLast).files }, ?_, ?_, ?_⟩
    · rw [mainSaveStep, save_results_to_json, FS.writeFile, if_pos hcond]
    · intro q hq
      rw [FS.mkdirParents]
      exact List.mem_append_left _ hq
    · rw [FS.read]
      rw [List.find?_cons_of_pos _ (by simp)]
      rfl
  · intro c hc
    rw [escapeChar]
    rw [if_neg (by intro h; rw [h] at hc; exact absurd hc (by decide))]
    rw [if_neg (by intro h; rw [h] at hc; exact absurd hc (by decide))]
    rw [if_neg (by intro h; rw [h] at hc; exact absurd hc (by decide))]
    rw [if_neg (by intro h; rw [h] at hc; exact absurd hc (by decide))]
    rw [if_neg (by intro h; rw [h] at hc; exact absurd hc (by decide))]
    rw [if_neg (by intro h; rw [h] at hc; exact absurd hc (by decide))]
    rw [if_neg (by intro h; rw [h] at hc; exact absurd hc (by decide))]
    rw [if_neg (by omega)]

/-- A starting filesystem with no directories and stale content already at
the destination. -/
def fs0 : FS :=
  { dirs := [], files := [(["results", "out.json"], "old content")] }

theorem save_creates_dirs_writes_array_overwrites_witness :
    (∃ fs2, mainSaveStep [] ["results", "out.json"] fs0 = .ok fs2 ∧
      (∀ q, q ∈ (["results", "out.json"] : FsPath).dropLast.inits →
        q ∈ fs2.dirs) ∧
      fs2.read ["results", "out.json"] = some (dumpResults [])) ∧
    escapeChar (Char.ofNat 12354) = String.singleton (Char.ofNat 12354) := by
  have h := save_creates_dirs_writes_array_overwrites fs0 []
    ["results", "out.json"]
  exact ⟨h.1, h.2.2 (Char.ofNat 12354) (by decide)⟩

end GenStory
